import Mathlib

/-!
Verification development for the LSD ("Lisp Structured Data") decoder:
a shallow embedding in Lean 4 of the parser (source file `parser` variant
with line tracking, root flag and bracketed strings) and of the binder
(the `lsd` package variant of the packing code), together with theorems
about the behaviour claimed by the design specification.

Modelling conventions:
  - Go runes are Lean `Char`s; the input is a `List Char` and positions
    index that list.  All claim-relevant inputs are valid UTF-8, and the
    Go implementation panics on invalid encodings before any claim-relevant
    behaviour, so rune decoding never fails in the model.
  - Go's machine integers are modelled by `Nat`/`Int` with explicit
    `% 2 ^ 64` where the Go code can overflow (strconv's accumulation loop).
  - Fallible Go code returns `Except`; Go panics are modelled by a
    distinguished error constructor.
  - Loops whose termination depends on the scanner state are written with
    an explicit fuel parameter; running out of fuel yields a distinguished
    `outOfFuel` error.  A fuel of `50` is ample for every concrete input
    used below.  One loop of the source genuinely diverges (see the
    theorems about `bareLoop`), which is why fuel is necessary.
-/

/-- A string value of a parsed S-expression, with the source line where it
started (`selfString` in the source). -/
structure SelfString where
  str : String
  lineNumber : Nat
deriving Repr, DecidableEq

/-- A value of the parsed tree: either a leaf string or a labeled list
(`selfValue` / `selfNode` in the source).  A node carries its head string,
its children, the line of its opening delimiter, and the root flag. -/
inductive SelfValue where
  | vs (s : SelfString)
  | vn (head : SelfString) (values : List SelfValue) (lineNumber : Nat) (root : Bool)
deriving Repr

/-- Parser state (`selfParser` in the source): remaining input as a rune
list, byte/rune position, 1-based line number, current rune, width of the
current rune (0 before the first decode, 1 afterwards), end-of-data flag. -/
structure ParserState where
  input : List Char
  pos : Nat
  lineNumber : Nat
  r : Char
  runeWidth : Nat
  eod : Bool
deriving Repr, DecidableEq

/-- Parse errors (`parserError` in the source), plus the fuel-exhaustion
artifact of the embedding. -/
inductive ParseErr where
  | err (message : String) (lineNumber : Nat)
  | outOfFuel
deriving Repr, DecidableEq

/-- The backtick character, used as the quoted-string delimiter. -/
def backquote : Char := Char.ofNat 96

/-- Advance to the next rune (`selfParser.next`).  The line counter is
bumped exactly when the rune being moved past is a line feed. -/
def ParserState.next (p : ParserState) : ParserState :=
  let pos := p.pos + p.runeWidth
  if h : pos < p.input.length then
    { p with pos := pos,
             lineNumber := if p.r = '\n' then p.lineNumber + 1 else p.lineNumber,
             r := p.input.get ⟨pos, h⟩,
             runeWidth := 1 }
  else
    { p with pos := pos, eod := true }

/-- Comment-start predicate (`isComment`). -/
def isComment (r : Char) : Bool :=
  r = ';' || r = '#'

/-- Whitespace predicate mirroring Go's `unicode.IsSpace` (the Unicode
White_Space property). -/
def isSpace (r : Char) : Bool :=
  r = ' ' || r = '\t' || r = '\n' || r.toNat = 11 || r.toNat = 12 || r = '\r' ||
  r.toNat = 0x85 || r.toNat = 0xa0 || r.toNat = 0x1680 ||
  (0x2000 ≤ r.toNat && r.toNat ≤ 0x200a) ||
  r.toNat = 0x2028 || r.toNat = 0x2029 || r.toNat = 0x202f ||
  r.toNat = 0x205f || r.toNat = 0x3000

/-- Characters allowed inside a bare string (`isStringChar`). -/
def isStringChar (r : Char) : Bool :=
  if isSpace r then false
  else if r = '[' || r = ']' || r = '(' || r = ')' || r = '{' || r = '}' || r = '\\' then false
  else true

/-- Skip to the end of the current line (`skipLine`). -/
def skipLine (fuel : Nat) (p : ParserState) : Except ParseErr ParserState :=
  match fuel with
  | 0 => .error .outOfFuel
  | fuel + 1 =>
    if p.eod = false ∧ p.r ≠ '\n' then skipLine fuel p.next else .ok p

/-- Skip whitespace and comments (`skipSpaces`). -/
def skipSpaces (fuel : Nat) (p : ParserState) : Except ParseErr ParserState :=
  match fuel with
  | 0 => .error .outOfFuel
  | fuel + 1 =>
    if p.eod = false ∧ (isComment p.r || isSpace p.r) = true then
      if isComment p.r then
        match skipLine fuel p with
        | .error e => .error e
        | .ok p1 => skipSpaces fuel p1
      else skipSpaces fuel p.next
    else .ok p

/-- Loop of `parseBacktickString`.  `prev` is Go's `prev` rune, with `none`
standing for the sentinel `-1`.  Note the faithful artifact: the inner
`prev = -1` assignment of the source is immediately overwritten by
`prev = p.r`, so the reset is dead; the discarded component reproduces it. -/
def backtickLoop (fuel : Nat) (acc : String) (prev : Option Char) (lineNum : Nat)
    (p : ParserState) : Except ParseErr (SelfString × ParserState) :=
  match fuel with
  | 0 => .error .outOfFuel
  | fuel + 1 =>
    if p.eod then .error (.err "unexpected end of data while parsing string" lineNum)
    else if p.r ≠ backquote ∧ prev = some backquote then .ok (⟨acc, lineNum⟩, p)
    else
      let step :=
        if p.r = backquote then
          if prev = some backquote then (acc.push backquote, (none : Option Char))
          else (acc, prev)
        else (acc.push p.r, prev)
      backtickLoop fuel step.1 (some p.r) lineNum p.next

/-- Parse a backtick-quoted string after the opening delimiter was consumed
(`parseBacktickString`).  Reaching end of data is a hard parse error. -/
def parseBacktickString (fuel : Nat) (p : ParserState) :
    Except ParseErr (SelfString × ParserState) :=
  backtickLoop fuel "" none p.lineNumber p

/-- Loop of `parseBracketedString`: copies runes while tracking the bracket
nesting `level` (always at least 1 while running).  When the closing
bracket brings the level to 0 the parser advances past it and, exactly as
the source does, still reports the end-of-data error if that consumed the
last rune. -/
def bracketLoop (fuel : Nat) (level : Nat) (acc : String) (lineNum : Nat)
    (p : ParserState) : Except ParseErr (SelfString × ParserState) :=
  match fuel with
  | 0 => .error .outOfFuel
  | fuel + 1 =>
    if p.eod then .error (.err "unexpected end of data while parsing string" lineNum)
    else if p.r = ']' then
      if level = 1 then
        let p1 := p.next
        if p1.eod then .error (.err "unexpected end of data while parsing string" lineNum)
        else .ok (⟨acc, lineNum⟩, p1)
      else bracketLoop fuel (level - 1) (acc.push ']') lineNum p.next
    else if p.r = '[' then bracketLoop fuel (level + 1) (acc.push '[') lineNum p.next
    else bracketLoop fuel level (acc.push p.r) lineNum p.next

/-- Bare-string loop of `parseString`.  Faithful to the source: the loop
condition tests only `isStringChar` and never the end-of-data flag, so at
end of data with a string character lingering in `r` it never exits. -/
def bareLoop (fuel : Nat) (acc : String) (lineNum : Nat) (p : ParserState) :
    Except ParseErr (SelfString × ParserState) :=
  match fuel with
  | 0 => .error .outOfFuel
  | fuel + 1 =>
    if isStringChar p.r then bareLoop fuel (acc.push p.r) lineNum p.next
    else .ok (⟨acc, lineNum⟩, p)

/-- Parse one string value (`parseString`): backtick-quoted, bracketed, or
bare depending on the current rune. -/
def parseString (fuel : Nat) (p : ParserState) :
    Except ParseErr (SelfString × ParserState) :=
  match fuel with
  | 0 => .error .outOfFuel
  | fuel + 1 =>
    if p.eod then .error (.err "unexpected end of data" p.lineNumber)
    else if p.r = backquote then parseBacktickString fuel p.next
    else if p.r = '[' then bracketLoop fuel 1 "" p.next.lineNumber p.next
    else bareLoop fuel "" p.lineNumber p

mutual

/-- Parse a list body (`parseNodeBody`): skip trivia, then accumulate
values until the closing delimiter or end of data. -/
def parseNodeBody (fuel : Nat) (rootNode : Bool) (p : ParserState) :
    Except ParseErr (List SelfValue × ParserState) :=
  match fuel with
  | 0 => .error .outOfFuel
  | fuel + 1 =>
    match skipSpaces fuel p with
    | .error e => .error e
    | .ok p1 => bodyLoop fuel rootNode [] p1
termination_by structural fuel

/-- The body accumulation loop of `parseNodeBody`.  On end of data the
accumulated values are returned without error; a bare value in root mode
is the structural error of the source. -/
def bodyLoop (fuel : Nat) (rootNode : Bool) (acc : List SelfValue) (p : ParserState) :
    Except ParseErr (List SelfValue × ParserState) :=
  match fuel with
  | 0 => .error .outOfFuel
  | fuel + 1 =>
    if p.eod = false ∧ p.r ≠ ')' then
      if p.r = '(' then
        match parseNode fuel p with
        | .error e => .error e
        | .ok (v, p1) =>
          match skipSpaces fuel p1 with
          | .error e => .error e
          | .ok p2 => bodyLoop fuel rootNode (acc ++ [v]) p2
      else if rootNode = false then
        match parseString fuel p with
        | .error e => .error e
        | .ok (s, p1) =>
          match skipSpaces fuel p1 with
          | .error e => .error e
          | .ok p2 => bodyLoop fuel rootNode (acc ++ [SelfValue.vs s]) p2
      else .error (.err "Unexpected string in root node" p.lineNumber)
    else
      if p.r = ')' then .ok (acc, p.next) else .ok (acc, p)
termination_by structural fuel

/-- Parse one parenthesised list (`parseNode`): requires the opening
delimiter, parses the head string, then the body in non-root mode. -/
def parseNode (fuel : Nat) (p : ParserState) :
    Except ParseErr (SelfValue × ParserState) :=
  match fuel with
  | 0 => .error .outOfFuel
  | fuel + 1 =>
    let lineNum := p.lineNumber
    match skipSpaces fuel p with
    | .error e => .error e
    | .ok p1 =>
      if p1.r = '(' then
        match parseString fuel p1.next with
        | .error e => .error e
        | .ok (nodeName, p2) =>
          match parseNodeBody fuel false p2 with
          | .error e => .error e
          | .ok (vals, p3) => .ok (SelfValue.vn nodeName vals lineNum false, p3)
      else .error (.err "expected `(` rune at start of list" p1.lineNumber)
termination_by structural fuel

end

/-- Initial parser state of `LoadString`: position 0, line 0, current rune
primed to a line feed with width 0. -/
def initParser (s : String) : ParserState :=
  { input := s.toList, pos := 0, lineNumber := 0, r := '\n', runeWidth := 0, eod := false }

/-- The parsing phase of `LoadString`: parse the whole input as the body of
the synthetic root node and return the root's children. -/
def loadStringParse (fuel : Nat) (s : String) : Except ParseErr (List SelfValue) :=
  match parseNodeBody fuel true (initParser s) with
  | .error e => .error e
  | .ok (vals, _) => .ok vals

/-!
Model of the used fragment of Go's `strconv`

`ParseUint`/`ParseInt` with the bases the binder uses (0, 2, 10), bit
sizes 0/8/16/32/64, including base-0 prefix detection, digit-separator
underscores and the range checks.  Go iterates over the bytes of the
string; the model iterates over its runes.  The two agree on every
outcome: digits and prefixes are ASCII (a byte below 0x80 is exactly an
ASCII rune), and any non-ASCII byte or rune fails the digit test alike.
-/

/-- Go `strconv`'s byte-level `lower`: sets the 0x20 bit. -/
def goLower (c : Char) : Char := Char.ofNat (c.toNat ||| 32)

/-- Digit value of a character as in the accumulation loop of
`strconv.ParseUint` ('0'-'9', then case-insensitive 'a'-'z'). -/
def goDigitVal (c : Char) : Option Nat :=
  if '0' ≤ c ∧ c ≤ '9' then some (c.toNat - '0'.toNat)
  else if 'a' ≤ goLower c ∧ goLower c ≤ 'z' then some ((goLower c).toNat - 'a'.toNat + 10)
  else none

/-- Numeric conversion errors of `strconv` (`ErrSyntax` / `ErrRange`). -/
inductive NumErr where
  | synErr
  | rangeErr
deriving Repr, DecidableEq

/-- Go's `strconv.underscoreOK` saw-class loop. -/
def goUnderscoreLoop (hex : Bool) : List Char → Char → Bool
  | [], saw => saw ≠ '_'
  | c :: cs, saw =>
    if ('0' ≤ c ∧ c ≤ '9') ∨ (hex ∧ 'a' ≤ goLower c ∧ goLower c ≤ 'f') then
      goUnderscoreLoop hex cs '0'
    else if c = '_' then
      if saw ≠ '0' then false else goUnderscoreLoop hex cs '_'
    else if saw = '_' then false
    else goUnderscoreLoop hex cs '!'

/-- Go's `strconv.underscoreOK`: underscores must separate digits (or
follow a base prefix), and must not dangle. -/
def goUnderscoreOK (s : String) : Bool :=
  let cs :=
    match s.toList with
    | c :: rest => if c = '-' ∨ c = '+' then rest else s.toList
    | [] => []
  match cs with
  | '0' :: c1 :: rest =>
    if goLower c1 = 'b' ∨ goLower c1 = 'o' ∨ goLower c1 = 'x' then
      goUnderscoreLoop (goLower c1 = 'x') rest '0'
    else goUnderscoreLoop false cs '^'
  | _ => goUnderscoreLoop false cs '^'

/-- The largest `uint64` value. -/
def maxUint64 : Nat := 2 ^ 64 - 1

/-- Accumulation loop of `strconv.ParseUint` over the digit characters.
`us` records whether an underscore was skipped.  The `% 2 ^ 64` mirrors the
wrap-around of the `n + d` overflow that the Go code detects with
`n1 < n`. -/
def goParseUintLoop (base maxVal : Nat) (base0 : Bool) :
    List Char → Nat → Bool → Except NumErr (Nat × Bool)
  | [], n, us => .ok (n, us)
  | c :: cs, n, us =>
    if c = '_' ∧ base0 then goParseUintLoop base maxVal base0 cs n true
    else
      match goDigitVal c with
      | none => .error .synErr
      | some d =>
        if d ≥ base then .error .synErr
        else if n ≥ maxUint64 / base + 1 then .error .rangeErr
        else
          let n1 := (n * base + d) % 2 ^ 64
          if n1 < n * base % 2 ^ 64 ∨ n1 > maxVal then .error .rangeErr
          else goParseUintLoop base maxVal base0 cs n1 us

/-- Model of `strconv.ParseUint` for the bases used by the binder (an
explicit base between 2 and 36, or base 0 with prefix detection). -/
def goParseUint (s : String) (base : Nat) (bitSize : Nat) : Except NumErr Nat :=
  if s = "" then .error .synErr
  else
    let base0 := base = 0
    let cs := s.toList
    let pick : Nat × List Char :=
      if 2 ≤ base ∧ base ≤ 36 then (base, cs)
      else
        match cs with
        | '0' :: c1 :: rest =>
          if rest ≠ [] ∧ goLower c1 = 'b' then (2, rest)
          else if rest ≠ [] ∧ goLower c1 = 'o' then (8, rest)
          else if rest ≠ [] ∧ goLower c1 = 'x' then (16, rest)
          else (8, c1 :: rest)
        | _ => (10, cs)
    let bits := if bitSize = 0 then 64 else bitSize
    let maxVal := 2 ^ bits - 1
    match goParseUintLoop pick.1 maxVal base0 pick.2 0 false with
    | .error e => .error e
    | .ok (n, us) =>
      if us ∧ goUnderscoreOK s = false then .error .synErr
      else .ok n

/-- Model of `strconv.ParseInt`: optional sign, then `ParseUint` at 64
bits, then the signed range check against `2 ^ (bitSize - 1)`. -/
def goParseInt (s : String) (base : Nat) (bitSize : Nat) : Except NumErr Int :=
  if s = "" then .error .synErr
  else
    let cs := s.toList
    let signed : Bool × List Char :=
      match cs with
      | '+' :: rest => (false, rest)
      | '-' :: rest => (true, rest)
      | _ => (false, cs)
    let neg := signed.1
    let bits := if bitSize = 0 then 64 else bitSize
    match goParseUint (String.mk signed.2) base 64 with
    | .error .synErr => .error .synErr
    | .error .rangeErr => .error .rangeErr
    | .ok un =>
      let cutoff := 2 ^ (bits - 1)
      if neg = false ∧ un ≥ cutoff then .error .rangeErr
      else if neg = true ∧ un > cutoff then .error .rangeErr
      else .ok (if neg then -(un : Int) else (un : Int))

/-- Model of `strconv.ParseBool` (`none` is the syntax error). -/
def goParseBool (s : String) : Option Bool :=
  if s = "1" ∨ s = "t" ∨ s = "T" ∨ s = "true" ∨ s = "TRUE" ∨ s = "True" then some true
  else if s = "0" ∨ s = "f" ∨ s = "F" ∨ s = "false" ∨ s = "FALSE" ∨ s = "False" then some false
  else none

/-!
Binder data model

The binder of the `lsd` package drives Go reflection over the caller's
destination value.  The model represents the reflective view directly:
`Kind` mirrors `reflect.Kind` (restricted to the kinds the package can
meaningfully bind: the scalar kinds minus floating point, which is outside
the scope of the claims and of a faithful discrete embedding, plus the
four compound kinds), `GoType` mirrors `reflect.Type` and `GoValue`
mirrors a typed `reflect.Value`.
-/

/-- The modelled fragment of `reflect.Kind`. -/
inductive Kind where
  | kstring | kbool
  | kint | kint8 | kint16 | kint32 | kint64
  | kuint | kuint8 | kuint16 | kuint32 | kuint64
  | kstruct | kslice | karray | kmap
deriving Repr, DecidableEq

/-- `reflect.Kind.String` on the modelled kinds. -/
def Kind.string : Kind → String
  | .kstring => "string"
  | .kbool => "bool"
  | .kint => "int"
  | .kint8 => "int8"
  | .kint16 => "int16"
  | .kint32 => "int32"
  | .kint64 => "int64"
  | .kuint => "uint"
  | .kuint8 => "uint8"
  | .kuint16 => "uint16"
  | .kuint32 => "uint32"
  | .kuint64 => "uint64"
  | .kstruct => "struct"
  | .kslice => "slice"
  | .karray => "array"
  | .kmap => "map"

/-- The modelled fragment of `reflect.Type`.  Struct types carry their
name and ordered fields; slice, array and map types are the unnamed
composite types (their `Name()` is the empty string, as in Go). -/
inductive GoType where
  | tstring | tbool
  | tint | tint8 | tint16 | tint32 | tint64
  | tuint | tuint8 | tuint16 | tuint32 | tuint64
  | tstruct (name : String) (fields : List (String × GoType))
  | tslice (elem : GoType)
  | tarray (size : Nat) (elem : GoType)
  | tmap (key : GoType) (elem : GoType)
deriving Repr

/-- `reflect.Type.Kind`. -/
def GoType.kind : GoType → Kind
  | .tstring => .kstring
  | .tbool => .kbool
  | .tint => .kint
  | .tint8 => .kint8
  | .tint16 => .kint16
  | .tint32 => .kint32
  | .tint64 => .kint64
  | .tuint => .kuint
  | .tuint8 => .kuint8
  | .tuint16 => .kuint16
  | .tuint32 => .kuint32
  | .tuint64 => .kuint64
  | .tstruct _ _ => .kstruct
  | .tslice _ => .kslice
  | .tarray _ _ => .karray
  | .tmap _ _ => .kmap

/-- `reflect.Type.Name` on the modelled types: only named struct types
have a name, the composite slice/array/map types are unnamed. -/
def GoType.name : GoType → String
  | .tstruct n _ => n
  | _ => ""

/-- A typed Go value as seen through `reflect.Value`.  Integer values
carry their kind and their (already range-checked) mathematical value;
slice, array and map values carry their element type descriptors so that
the reflective element type is available, exactly as a `reflect.Value`
knows its `Type()`. -/
inductive GoValue where
  | vstring (s : String)
  | vbool (b : Bool)
  | vint (k : Kind) (i : Int)
  | vuint (k : Kind) (n : Nat)
  | vstruct (typeName : String) (fields : List (String × GoValue))
  | vslice (elemType : GoType) (elems : List GoValue)
  | varray (size : Nat) (elemType : GoType) (elems : List GoValue)
  | vmap (keyType elemType : GoType) (entries : List (GoValue × GoValue))
deriving Repr

/-- `reflect.Value.Kind`. -/
def GoValue.kind : GoValue → Kind
  | .vstring _ => .kstring
  | .vbool _ => .kbool
  | .vint k _ => k
  | .vuint k _ => k
  | .vstruct _ _ => .kstruct
  | .vslice _ _ => .kslice
  | .varray _ _ _ => .karray
  | .vmap _ _ _ => .kmap

/-- The zero value of a type (`reflect.Zero` / `reflect.New(t).Elem()`),
with fuel for the nested struct recursion (`50` covers every concrete
type below; the fuel-exhausted fallback is never reached on them). -/
def zeroValue (fuel : Nat) (t : GoType) : GoValue :=
  match fuel with
  | 0 => .vstring ""
  | fuel + 1 =>
    match t with
    | .tstring => .vstring ""
    | .tbool => .vbool false
    | .tint => .vint .kint 0
    | .tint8 => .vint .kint8 0
    | .tint16 => .vint .kint16 0
    | .tint32 => .vint .kint32 0
    | .tint64 => .vint .kint64 0
    | .tuint => .vuint .kuint 0
    | .tuint8 => .vuint .kuint8 0
    | .tuint16 => .vuint .kuint16 0
    | .tuint32 => .vuint .kuint32 0
    | .tuint64 => .vuint .kuint64 0
    | .tstruct n fields => .vstruct n (fields.map fun f => (f.1, zeroValue fuel f.2))
    | .tslice e => .vslice e []
    | .tarray n e => .varray n e (List.replicate n (zeroValue fuel e))
    | .tmap k e => .vmap k e []

/-- Binder errors: `packError` of the source (message and line number),
Go panics, and the fuel-exhaustion artifact of the embedding. -/
inductive GoErr where
  | packErr (message : String) (lineNumber : Nat)
  | panic (message : String)
  | outOfFuel
deriving Repr, DecidableEq

/-- Field lookup on a struct value (`reflect.Value.FieldByName`);
`none` means the `IsValid()` test of the source fails.  Go would panic on
a non-struct value; no call site reaches that case with a valid schema,
and the model returns `none` there. -/
def stFieldByName (st : GoValue) (name : String) : Option GoValue :=
  match st with
  | .vstruct _ fields => lookupField fields name
  | _ => none
where
  lookupField : List (String × GoValue) → String → Option GoValue
    | [], _ => none
    | (n, v) :: rest, name => if n = name then some v else lookupField rest name

/-- Replace the value of a named field (the effect of `Set` on the
`reflect.Value` returned by `FieldByName`). -/
def stSetField (st : GoValue) (name : String) (v : GoValue) : GoValue :=
  match st with
  | .vstruct tn fields => .vstruct tn (setFieldList fields name v)
  | other => other
where
  setFieldList : List (String × GoValue) → String → GoValue → List (String × GoValue)
    | [], _, _ => []
    | (n, w) :: rest, name, v =>
      if n = name then (n, v) :: rest else (n, w) :: setFieldList rest name v

/-- Indexed field access on the field list of a struct value
(`reflect.Value.Field`). -/
def fieldsGet : List (String × GoValue) → Nat → Option (String × GoValue)
  | [], _ => none
  | f :: _, 0 => some f
  | _ :: rest, i + 1 => fieldsGet rest i

/-- Indexed field update on the field list of a struct value. -/
def fieldsSet : List (String × GoValue) → Nat → GoValue → List (String × GoValue)
  | [], _, _ => []
  | (n, _) :: rest, 0, v => (n, v) :: rest
  | f :: rest, i + 1, v => f :: fieldsSet rest i v

/-- Indexed element access on a list of values (`reflect.Value.Index`). -/
def elemsGet : List GoValue → Nat → Option GoValue
  | [], _ => none
  | v :: _, 0 => some v
  | _ :: rest, i + 1 => elemsGet rest i

/-- Indexed element update on a list of values. -/
def elemsSet : List GoValue → Nat → GoValue → List GoValue
  | [], _, _ => []
  | _ :: rest, 0, v => v :: rest
  | w :: rest, i + 1, v => w :: elemsSet rest i v

/-- Equality of scalar map keys, as Go's `==` on map keys.  Compound keys
never reach this point (their coercion yields no key first). -/
def goKeyEq : GoValue → GoValue → Bool
  | .vstring a, .vstring b => a = b
  | .vbool a, .vbool b => a = b
  | .vint k a, .vint k2 b => k = k2 ∧ a = b
  | .vuint k a, .vuint k2 b => k = k2 ∧ a = b
  | _, _ => false

/-- `reflect.Value.SetMapIndex`: overwrite the entry of an existing key,
otherwise append a new entry. -/
def mapSet : List (GoValue × GoValue) → GoValue → GoValue → List (GoValue × GoValue)
  | [], k, v => [(k, v)]
  | (k0, v0) :: rest, k, v =>
    if goKeyEq k0 k then (k0, v) :: rest else (k0, v0) :: mapSet rest k v

/-!
Binder: predicates and scalar coercion (`lsd` package)
-/

/-- `isScalarKind` of the source: everything except the compound and
non-data kinds can be packed as a single scalar value. -/
def isScalarKind (kind : Kind) : Bool :=
  match kind with
  | .kstruct | .kslice | .karray | .kmap => false
  | _ => true

/-- `isCompoundKind` of the source (the `lsd` variant, which includes
maps). -/
def isCompoundKind (kind : Kind) : Bool :=
  match kind with
  | .karray | .kslice | .kstruct | .kmap => true
  | _ => false

/-- `isBulletPoint` of the source (`lsd` variant, six bullets): decodes
the first rune of the string; the empty string decodes to the Unicode
replacement rune, which is not a bullet. -/
def isBulletPoint (str : String) : Bool :=
  match str.toList with
  | [] => false
  | r :: _ => r = '-' || r = '*' || r = '•' || r = '◦' || r = '‣' || r = '⁃'

/-- `publicName` of the source: capitalise the first character of a field
name.  Go upper-cases the first byte cast to a rune; on the ASCII names
of the claims the two coincide. -/
def publicName (fieldName : String) : String :=
  match fieldName.toList with
  | [] => fieldName
  | c :: rest => String.mk (c.toUpper :: rest)

/-- Result of the `parseIntEx`/`parseUintEx` helpers: a value, a strconv
error (which the caller turns into a `packError`), or a Go panic. -/
inductive StrconvResult (α : Type) where
  | ok (a : α)
  | err (e : NumErr)
  | panic (msg : String)
deriving Repr

/-- The byte length of a string (`len(s)` in Go). -/
def goByteLen (s : String) : Nat :=
  (s.toList.map Char.utf8Size).sum

/-- Whether the byte slice `s[0:2]` equals `"0b"`.  The two bytes 0x30
0x62 decode exactly as the runes '0' 'b', so the byte comparison of the
source is the rune-prefix test. -/
def goHasBinaryPrefix (s : String) : Bool :=
  match s.toList with
  | '0' :: 'b' :: _ => true
  | _ => false

/-- `parseIntEx` of the source: dispatch on the `"0b"` prefix, taken with
the unchecked byte slice `s[0:2]`, which panics whenever the literal is
shorter than two bytes. -/
def parseIntEx (s : String) (bitSize : Nat) : StrconvResult Int :=
  if goByteLen s < 2 then .panic "slice bounds out of range"
  else if goHasBinaryPrefix s then
    match goParseInt (String.mk (s.toList.drop 2)) 2 bitSize with
    | .ok i => .ok i
    | .error e => .err e
  else
    match goParseInt s 0 bitSize with
    | .ok i => .ok i
    | .error e => .err e

/-- `parseUintEx` of the source: same dispatch and the same unchecked
`s[0:2]` slice as `parseIntEx`. -/
def parseUintEx (s : String) (bitSize : Nat) : StrconvResult Nat :=
  if goByteLen s < 2 then .panic "slice bounds out of range"
  else if goHasBinaryPrefix s then
    match goParseUint (String.mk (s.toList.drop 2)) 2 bitSize with
    | .ok n => .ok n
    | .error e => .err e
  else
    match goParseUint s 0 bitSize with
    | .ok n => .ok n
    | .error e => .err e

/-- `parseBoolEx` of the source: `strconv.ParseBool`, then the four
spellings of yes and the four spellings of no. -/
def parseBoolEx (repr : String) : Option Bool :=
  match goParseBool repr with
  | some b => some b
  | none =>
    if repr = "y" ∨ repr = "yes" ∨ repr = "YES" ∨ repr = "Yes" then some true
    else if repr = "n" ∨ repr = "no" ∨ repr = "NO" ∨ repr = "No" then some false
    else none

/-- The `bitSize` selected by `encodeScalarField` for each integer kind. -/
def intBitSize : Kind → Nat
  | .kint => 0
  | .kint8 => 8
  | .kint16 => 16
  | .kint32 => 32
  | .kint64 => 64
  | .kuint => 0
  | .kuint8 => 8
  | .kuint16 => 16
  | .kuint32 => 32
  | .kuint64 => 64
  | _ => 0

/-- Whether a kind is one of the five signed integer kinds. -/
def isIntKind (k : Kind) : Bool :=
  match k with
  | .kint | .kint8 | .kint16 | .kint32 | .kint64 => true
  | _ => false

/-- Whether a kind is one of the five unsigned integer kinds. -/
def isUintKind (k : Kind) : Bool :=
  match k with
  | .kuint | .kuint8 | .kuint16 | .kuint32 | .kuint64 => true
  | _ => false

/-- `encodeScalarField` of the source (`lsd` variant): convert a string
value to its native scalar Go value.  The result is `some` value for the
handled kinds; for the compound kinds the Go switch falls through and
returns a nil interface, modelled as `none`.  strconv failures become
`packError`s carrying the literal and the kind name; the slice panic of
the `parse*Ex` helpers propagates. -/
def encodeScalarField (str : SelfString) (kind : Kind) : Except GoErr (Option GoValue) :=
  let repr := str.str
  match kind with
  | .kstring => .ok (some (.vstring repr))
  | .kbool =>
    match parseBoolEx repr with
    | some b => .ok (some (.vbool b))
    | none =>
      .error (.packErr ("cannot convert value `" ++ repr ++ "` to type bool") str.lineNumber)
  | .kint | .kint8 | .kint16 | .kint32 | .kint64 =>
    match parseIntEx repr (intBitSize kind) with
    | .ok i => .ok (some (.vint kind i))
    | .err _ =>
      .error (.packErr ("cannot convert value `" ++ repr ++ "` to type " ++ kind.string)
        str.lineNumber)
    | .panic m => .error (.panic m)
  | .kuint | .kuint8 | .kuint16 | .kuint32 | .kuint64 =>
    match parseUintEx repr (intBitSize kind) with
    | .ok u => .ok (some (.vuint kind u))
    | .err _ =>
      .error (.packErr ("cannot convert value `" ++ repr ++ "` to type " ++ kind.string)
        str.lineNumber)
    | .panic m => .error (.panic m)
  | .kstruct | .kslice | .karray | .kmap => .ok none

/-- `selfString.makeValue` of the source: scalar kinds go through
`encodeScalarField`; packing a string into a compound kind is an error. -/
def strMakeValue (s : SelfString) (k : Kind) : Except GoErr GoValue :=
  if isScalarKind k then
    match encodeScalarField s k with
    | .ok (some v) => .ok v
    | .ok none => .error (.panic "reflect: call of reflect.Value.Set on zero Value")
    | .error e => .error e
  else if isCompoundKind k then
    .error (.packErr ("cannot pack string `" ++ s.str ++ "` into field of compound kind " ++
      k.string) s.lineNumber)
  else .error (.packErr ("unsupported field kind " ++ k.string) s.lineNumber)

/-- `selfString.packIntoField` of the source: make the value and set the
field to it; the new field value is returned. -/
def strPackIntoField (s : SelfString) (field : GoValue) : Except GoErr GoValue :=
  strMakeValue s field.kind

/-- `checkMetaHeader` of the source: label rule for a compound value
nested in a slice or an array.  A nested slice/array must carry the empty
label; a nested struct/map must carry a bullet or the element type's
name. -/
def checkMetaHeader (head : SelfString) (elemType : GoType) : Except GoErr Unit :=
  let header := head.str
  let kind := elemType.kind
  if kind = .kslice ∨ kind = .karray then
    if header ≠ "" then
      .error (.packErr ("slice head has value `" ++ header ++ "` instead of []")
        head.lineNumber)
    else .ok ()
  else if kind = .kstruct ∨ kind = .kmap then
    if ¬isBulletPoint header ∧ header ≠ elemType.name then
      .error (.packErr ("struct head has value `" ++ header ++ "` instead of bullet or `" ++
        elemType.name ++ "`") head.lineNumber)
    else .ok ()
  else .ok ()

/-!
Binder: recursive packing (`lsd` package)

All functions thread an explicit fuel, decremented once per call; the
recursion of the source is structural on the tree, so any fuel beyond the
tree size is enough and `100` is ample for every concrete value below.
-/

/-- The compound-element guard shared by `packToSlice` and `packToArray`
(the `switch sliceKind`/`switch arrayKind` at the top of their loops): for
a compound element kind the child must be a list and its head must pass
`checkMetaHeader`; scalar element kinds are unchecked here. -/
def compoundChildCheck (elemType : GoType) (n : SelfValue) : Except GoErr Unit :=
  match elemType.kind with
  | .kslice | .karray | .kstruct | .kmap =>
    match n with
    | .vs s =>
      .error (.packErr ("compound kind `" ++ elemType.kind.string ++
        "` expected a list of values") s.lineNumber)
    | .vn h _ _ _ => checkMetaHeader h elemType
  | _ => .ok ()

/-- The mode-selecting loop of `packToStruct` (`lsd` variant): `true`
means pack by field order.  The source returns `packToStructByFieldOrder`
from inside the loop at the first string child or at the first list child
whose raw head fails `FieldByName(...).IsValid()`; since the packing call
itself does not depend on the loop position, the choice is extracted
here. -/
def structModeScan (st : GoValue) : List SelfValue → Bool
  | [] => false
  | .vs _ :: _ => true
  | .vn h _ _ _ :: rest =>
    if (stFieldByName st h.str).isSome then structModeScan st rest else true

mutual

/-- `packIntoField` dispatch: a `selfString` packs via its `makeValue`, a
`selfNode` packs scalars through its single string child and compound
kinds through the dedicated packers (`selfNode.packIntoField` /
`selfString.packIntoField` of the source). -/
def packIntoField (fuel : Nat) (v : SelfValue) (name : String) (field : GoValue) :
    Except GoErr GoValue :=
  match fuel with
  | 0 => .error .outOfFuel
  | fuel + 1 =>
    match v with
    | .vs s => strPackIntoField s field
    | .vn head values ln _ =>
      let fieldKind := field.kind
      if isScalarKind fieldKind then
        if values.length ≠ 1 then
          .error (.packErr ("bad number of values for scalar field `" ++ name ++ "`") ln)
        else
          match values with
          | [SelfValue.vs s] => strPackIntoField s field
          | _ =>
            .error (.packErr ("expected a string element for scalar field `" ++ name ++ "`") ln)
      else if fieldKind = .kstruct then packToStruct fuel head values ln field
      else if fieldKind = .karray then packToArray fuel head values ln field
      else if fieldKind = .kslice then packToSlice fuel head values ln field
      else if fieldKind = .kmap then
        match field with
        | .vmap kt et _ => packToMap fuel head values ln kt et []
        | _ => .error (.panic "reflect.MakeMap of non-map type")
      else .error (.packErr ("unsupported field kind " ++ fieldKind.string) ln)
termination_by structural fuel

/-- `makeValue` dispatch over the two node kinds. -/
def valueMakeValue (fuel : Nat) (v : SelfValue) (t : GoType) : Except GoErr GoValue :=
  match fuel with
  | 0 => .error .outOfFuel
  | fuel + 1 =>
    match v with
    | .vs s => strMakeValue s t.kind
    | .vn head values ln _ => nodeMakeValue fuel head values ln t
termination_by structural fuel

/-- `selfNode.makeValue` of the source: allocate a fresh value of the
requested type and pack into it.  The array branch calls
`reflect.MakeSlice` on an array type, which panics in Go; the model
reproduces the panic. -/
def nodeMakeValue (fuel : Nat) (head : SelfString) (values : List SelfValue) (ln : Nat)
    (t : GoType) : Except GoErr GoValue :=
  match fuel with
  | 0 => .error .outOfFuel
  | fuel + 1 =>
    let kind := t.kind
    if isScalarKind kind then
      .error (.packErr "expected a string element for scalar field" ln)
    else if kind = .karray then .error (.panic "reflect.MakeSlice of non-slice type")
    else if kind = .kslice then
      match t with
      | .tslice e => packToSlice fuel head values ln (.vslice e [])
      | _ => .error (.panic "reflect: bad type")
    else if kind = .kstruct then packToStruct fuel head values ln (zeroValue 100 t)
    else if kind = .kmap then
      match t with
      | .tmap kt et => packToMap fuel head values ln kt et []
      | _ => .error (.panic "reflect: bad type")
    else .error (.packErr ("unsupported field kind " ++ kind.string) ln)
termination_by structural fuel

/-- `packToSlice` of the source: append one element per child.  Children
of a compound element kind must be lists and must pass the meta-header
check. -/
def packToSlice (fuel : Nat) (head : SelfString) (values : List SelfValue) (ln : Nat)
    (field : GoValue) : Except GoErr GoValue :=
  match fuel with
  | 0 => .error .outOfFuel
  | fuel + 1 =>
    match field with
    | .vslice elemType elems => sliceLoop fuel elemType values elems
    | _ => .error (.panic "reflect: bad slice value")
termination_by structural fuel

/-- Iteration of `packToSlice` over the children. -/
def sliceLoop (fuel : Nat) (elemType : GoType) (values : List SelfValue)
    (elems : List GoValue) : Except GoErr GoValue :=
  match fuel with
  | 0 => .error .outOfFuel
  | fuel + 1 =>
    match values with
    | [] => .ok (.vslice elemType elems)
    | n :: rest =>
      match compoundChildCheck elemType n with
      | .error e => .error e
      | .ok _ =>
        match valueMakeValue fuel n elemType with
        | .error e => .error e
        | .ok v => sliceLoop fuel elemType rest (elems ++ [v])
termination_by structural fuel

/-- `packToArray` of the source: a child count beyond the array length is
an error; otherwise pack index by index with the same compound-child
checks as slices. -/
def packToArray (fuel : Nat) (head : SelfString) (values : List SelfValue) (ln : Nat)
    (field : GoValue) : Except GoErr GoValue :=
  match fuel with
  | 0 => .error .outOfFuel
  | fuel + 1 =>
    match field with
    | .varray size elemType elems =>
      if values.length > size then
        .error (.packErr ("too many values to fit into array of " ++ toString size ++
          " elements") ln)
      else arrayLoop fuel size elemType values 0 elems
    | _ => .error (.panic "reflect: bad array value")
termination_by structural fuel

/-- Iteration of `packToArray` over the children. -/
def arrayLoop (fuel : Nat) (size : Nat) (elemType : GoType) (values : List SelfValue)
    (i : Nat) (elems : List GoValue) : Except GoErr GoValue :=
  match fuel with
  | 0 => .error .outOfFuel
  | fuel + 1 =>
    match values with
    | [] => .ok (.varray size elemType elems)
    | n :: rest =>
      match compoundChildCheck elemType n with
      | .error e => .error e
      | .ok _ =>
        match elemsGet elems i with
        | none => .error (.panic "reflect: array index out of range")
        | some cur =>
          match packIntoField fuel n "" cur with
          | .error e => .error e
          | .ok v => arrayLoop fuel size elemType rest (i + 1) (elemsSet elems i v)
termination_by structural fuel

/-- `packToMap` of the source: every child must be a list; its head is
coerced to the key type and its body packs as the value type. -/
def packToMap (fuel : Nat) (head : SelfString) (values : List SelfValue) (ln : Nat)
    (keyType elemType : GoType) (entries : List (GoValue × GoValue)) :
    Except GoErr GoValue :=
  match fuel with
  | 0 => .error .outOfFuel
  | fuel + 1 => mapLoop fuel head.str values keyType elemType entries
termination_by structural fuel

/-- Iteration of `packToMap` over the children. -/
def mapLoop (fuel : Nat) (nodeName : String) (values : List SelfValue)
    (keyType elemType : GoType) (entries : List (GoValue × GoValue)) :
    Except GoErr GoValue :=
  match fuel with
  | 0 => .error .outOfFuel
  | fuel + 1 =>
    match values with
    | [] => .ok (.vmap keyType elemType entries)
    | n :: rest =>
      match n with
      | .vs s =>
        .error (.packErr ("field `" ++ nodeName ++ "` should be only made of lists")
          s.lineNumber)
      | .vn h vals vln vrt =>
        match encodeScalarField h keyType.kind with
        | .error e => .error e
        | .ok key =>
          match packIntoField fuel (.vn h vals vln vrt) h.str (zeroValue 100 elemType) with
          | .error e => .error e
          | .ok v =>
            match key with
            | none => .error (.panic "reflect: SetMapIndex using zero Value")
            | some k => mapLoop fuel nodeName rest keyType elemType (mapSet entries k v)
termination_by structural fuel

/-- `packToStructByFieldName` of the source: every child must be a list;
its capitalised head must name a field, which then packs the child. -/
def packToStructByFieldName (fuel : Nat) (head : SelfString) (values : List SelfValue)
    (ln : Nat) (st : GoValue) : Except GoErr GoValue :=
  match fuel with
  | 0 => .error .outOfFuel
  | fuel + 1 => nameLoop fuel head.str values st
termination_by structural fuel

/-- Iteration of `packToStructByFieldName` over the children. -/
def nameLoop (fuel : Nat) (nodeName : String) (values : List SelfValue) (st : GoValue) :
    Except GoErr GoValue :=
  match fuel with
  | 0 => .error .outOfFuel
  | fuel + 1 =>
    match values with
    | [] => .ok st
    | n :: rest =>
      match n with
      | .vs s =>
        .error (.packErr ("field `" ++ nodeName ++ "` should be only made of lists")
          s.lineNumber)
      | .vn h vals vln vrt =>
        let fieldName := publicName h.str
        match stFieldByName st fieldName with
        | none =>
          .error (.packErr ("undefined field `" ++ fieldName ++ "` for node `" ++
            nodeName ++ "`") vln)
        | some targetField =>
          match packIntoField fuel (.vn h vals vln vrt) fieldName targetField with
          | .error e => .error e
          | .ok newV => nameLoop fuel nodeName rest (stSetField st fieldName newV)
termination_by structural fuel

/-- `packToStructByFieldOrder` of the source: the child count must not
exceed the field count, the node label must be a bullet or the struct
type name, then children pack positionally. -/
def packToStructByFieldOrder (fuel : Nat) (head : SelfString) (values : List SelfValue)
    (ln : Nat) (st : GoValue) : Except GoErr GoValue :=
  match fuel with
  | 0 => .error .outOfFuel
  | fuel + 1 =>
    match st with
    | .vstruct typeName fields =>
      if fields.length < values.length then
        .error (.packErr ("too many values to fit into struct " ++ typeName) ln)
      else if ¬isBulletPoint head.str ∧ typeName ≠ head.str then
        .error (.packErr ("bad value `" ++ head.str ++ "`, expected `" ++ typeName ++ "`") ln)
      else orderLoop fuel values 0 typeName fields
    | _ => .error (.panic "reflect: NumField of non-struct type")
termination_by structural fuel

/-- Iteration of `packToStructByFieldOrder` over the children. -/
def orderLoop (fuel : Nat) (values : List SelfValue) (i : Nat) (typeName : String)
    (fields : List (String × GoValue)) : Except GoErr GoValue :=
  match fuel with
  | 0 => .error .outOfFuel
  | fuel + 1 =>
    match values with
    | [] => .ok (.vstruct typeName fields)
    | n :: rest =>
      match fieldsGet fields i with
      | none => .error (.panic "reflect: Field index out of range")
      | some f =>
        match packIntoField fuel n "" f.2 with
        | .error e => .error e
        | .ok newV => orderLoop fuel rest (i + 1) typeName (fieldsSet fields i newV)
termination_by structural fuel

/-- `packToStruct` of the source (`lsd` variant): scan the children; a
string child, or a list child whose raw head is not a valid field name,
selects by-order packing; otherwise pack by name.  The scan
(`structModeScan`) only chooses the mode, exactly like the early-return
loop of the source. -/
def packToStruct (fuel : Nat) (head : SelfString) (values : List SelfValue) (ln : Nat)
    (st : GoValue) : Except GoErr GoValue :=
  match fuel with
  | 0 => .error .outOfFuel
  | fuel + 1 =>
    if structModeScan st values then packToStructByFieldOrder fuel head values ln st
    else packToStructByFieldName fuel head values ln st
termination_by structural fuel

end

/-!
Helper notions used by the theorems
-/

/-- Whether a tree value is a list (a `selfNode`). -/
def isListChild : SelfValue → Bool
  | .vs _ => false
  | .vn _ _ _ _ => true

/-- The condition under which the mode scan of `packToStruct` selects
by-order packing at a given child. -/
def orderTrigger (st : GoValue) : SelfValue → Bool
  | .vs _ => true
  | .vn h _ _ _ => (stFieldByName st h.str).isNone

/-- The meta-header label rule as stated by the specification: a child of
a sequence of sequences must carry the empty label, a child of a sequence
of records/mappings must carry a bullet or the element type's name. -/
def labelOKB (t : GoType) (header : String) : Bool :=
  match t.kind with
  | .kslice | .karray => header = ""
  | .kstruct | .kmap => isBulletPoint header || header = t.name
  | _ => true

/-- The destination field names addressed by the children of a node in
by-name mode (the capitalised heads of its list children). -/
def childFieldNames : List SelfValue → List String
  | [] => []
  | .vn h _ _ _ :: rest => publicName h.str :: childFieldNames rest
  | .vs _ :: rest => childFieldNames rest

/-- Erase the line annotations of a tree value (fuelled like the other
recursive tree functions). -/
def stripLines (fuel : Nat) : SelfValue → SelfValue
  | v =>
    match fuel with
    | 0 => v
    | fuel + 1 =>
      match v with
      | .vs s => .vs ⟨s.str, 0⟩
      | .vn h vals ln rt => .vn ⟨h.str, 0⟩ (vals.map (stripLines fuel)) 0 rt

/-- The strings accepted as `true` by `parseBoolEx`: the six
`strconv.ParseBool` spellings plus the four yes spellings. -/
def boolTrueLits : List String :=
  ["1", "t", "T", "true", "TRUE", "True", "y", "yes", "YES", "Yes"]

/-- The strings accepted as `false` by `parseBoolEx`. -/
def boolFalseLits : List String :=
  ["0", "f", "F", "false", "FALSE", "False", "n", "no", "NO", "No"]

/-!
Claim theorems
-/

/-- Claim C2 (confirmed): against an unsigned 8-bit target, the literal
`"0x1F"` binds to 31, `"0b101"` binds to 5, and `"256"` is a bind error;
the underlying conversion fails specifically with the range error, i.e.
because 256 does not fit 8 bits. -/
theorem claim_C2 :
    encodeScalarField ⟨"0x1F", 0⟩ .kuint8 = .ok (some (.vuint .kuint8 31)) ∧
    encodeScalarField ⟨"0b101", 0⟩ .kuint8 = .ok (some (.vuint .kuint8 5)) ∧
    encodeScalarField ⟨"256", 0⟩ .kuint8 =
      .error (.packErr "cannot convert value `256` to type uint8" 0) ∧
    parseUintEx "256" 8 = .err .rangeErr :=
  ⟨rfl, rfl, rfl, rfl⟩

/-- Claim C7 (confirmed): `(X hello)`, `(X `\x60a b\x60`)` and
`(X [a [b] c])` parse to a list labeled `X` whose single child is the
string `"hello"`, `"a b"`, `"a [b] c"` respectively. -/
theorem claim_C7 :
    loadStringParse 50 "(X hello)" =
      .ok [SelfValue.vn ⟨"X", 1⟩ [SelfValue.vs ⟨"hello", 1⟩] 1 false] ∧
    loadStringParse 50 "(X `a b`)" =
      .ok [SelfValue.vn ⟨"X", 1⟩ [SelfValue.vs ⟨"a b", 1⟩] 1 false] ∧
    loadStringParse 50 "(X [a [b] c])" =
      .ok [SelfValue.vn ⟨"X", 1⟩ [SelfValue.vs ⟨"a [b] c", 1⟩] 1 false] :=
  ⟨rfl, rfl, rfl⟩

/-- Claim C9, counterexample: the two parses are not identical, because
the tree records source line numbers and the comment line shifts them
(the node and its child sit on line 2 instead of line 1). -/
theorem claim_C9_counterexample :
    loadStringParse 50 "; comment\n(X 1)" =
      .ok [SelfValue.vn ⟨"X", 2⟩ [SelfValue.vs ⟨"1", 2⟩] 2 false] ∧
    loadStringParse 50 "(X 1)" =
      .ok [SelfValue.vn ⟨"X", 1⟩ [SelfValue.vs ⟨"1", 1⟩] 1 false] ∧
    ([SelfValue.vn ⟨"X", 2⟩ [SelfValue.vs ⟨"1", 2⟩] 2 false] ≠
      [SelfValue.vn ⟨"X", 1⟩ [SelfValue.vs ⟨"1", 1⟩] 1 false]) := by
  refine ⟨rfl, rfl, ?_⟩
  intro h
  injection h with h1 _
  injection h1 with h2 _ h3 _
  injection h2 with _ h4
  exact absurd h4 (by decide)

/-- Claim C9 as amended (the comment has no effect on the parse result up
to source-line annotations): stripping the line numbers from both parses
yields identical trees. -/
theorem claim_C9 :
    ∃ va vb,
      loadStringParse 50 "; comment\n(X 1)" = .ok va ∧
      loadStringParse 50 "(X 1)" = .ok vb ∧
      va.map (stripLines 50) = vb.map (stripLines 50) :=
  ⟨_, _, rfl, rfl, rfl⟩

/-- Claim C1, counterexample: a node all of whose children are lists, but
one child's label does not name a field of the record, is packed
positionally (by field order, successfully filling the first field), not
by name (which would reject the unknown field); so "every direct child is
a list" does not select by-name mode, and the label-validity check also
influences the choice. -/
theorem claim_C1_counterexample :
    List.all [SelfValue.vn ⟨"B", 1⟩ [SelfValue.vs ⟨"x", 1⟩] 1 false] isListChild = true ∧
    packToStruct 100 ⟨"T", 1⟩ [SelfValue.vn ⟨"B", 1⟩ [SelfValue.vs ⟨"x", 1⟩] 1 false] 1
        (.vstruct "T" [("A", .vstring "")]) =
      .ok (.vstruct "T" [("A", .vstring "x")]) ∧
    packToStructByFieldName 100 ⟨"T", 1⟩
        [SelfValue.vn ⟨"B", 1⟩ [SelfValue.vs ⟨"x", 1⟩] 1 false] 1
        (.vstruct "T" [("A", .vstring "")]) =
      .error (.packErr "undefined field `B` for node `T`" 1) :=
  ⟨rfl, rfl, rfl⟩

/-- Claim C6, counterexample: `"Y"` is a case-insensitive spelling of `y`
but is rejected (only `y`, `yes`, `YES`, `Yes` are accepted), and `"t"`
is accepted as true although it is not among the literals the claim
allows. -/
theorem claim_C6_counterexample :
    parseBoolEx "Y" = none ∧ parseBoolEx "t" = some true :=
  ⟨rfl, rfl⟩

/-- Claim C3, counterexample: in positional mode an empty node label is
not accepted for a record type with a non-empty name; the binder demands
a bullet or the exact type name. -/
theorem claim_C3_counterexample :
    packToStructByFieldOrder 100 ⟨"", 1⟩ [] 1 (.vstruct "T" [("A", .vstring "")]) =
      .error (.packErr "bad value ``, expected `T`" 1) :=
  rfl

/-- The mode scan of `packToStruct` fires exactly when some child is a
string or some list child's raw head names no field of the target. -/
theorem structModeScan_eq_any (st : GoValue) :
    ∀ values : List SelfValue, structModeScan st values = values.any (orderTrigger st) := by
  intro values
  induction values with
  | nil => rfl
  | cons v rest ih =>
    cases v with
    | vs s => simp [structModeScan, orderTrigger]
    | vn h vals ln rt =>
      cases hlk : stFieldByName st h.str with
      | some w => simp [structModeScan, orderTrigger, hlk, ih]
      | none => simp [structModeScan, orderTrigger, hlk]

/-- Claim C1 as amended: for a record target, positional (by-order) mode
is selected exactly when some direct child is a string value or some
direct child is a list whose raw label does not name a field of the
record; by-name mode is selected otherwise.  The label-validity test
influences the choice, in addition to the string/list shape. -/
theorem claim_C1 :
    ∀ (fuel : Nat) (head : SelfString) (values : List SelfValue) (ln : Nat) (st : GoValue),
      packToStruct (fuel + 1) head values ln st =
        if values.any (orderTrigger st) then packToStructByFieldOrder fuel head values ln st
        else packToStructByFieldName fuel head values ln st := by
  intro fuel head values ln st
  show (if structModeScan st values then packToStructByFieldOrder fuel head values ln st
        else packToStructByFieldName fuel head values ln st) = _
  rw [structModeScan_eq_any]

/-- Claim C3 as amended: in positional mode, a child count beyond the
field count is an error regardless of the label; with the count in range
the label must be a bullet marker or exactly the record type's name
(so the empty label is accepted only for an anonymous record type whose
name is itself empty), and an accepted label proceeds to per-field
packing. -/
theorem claim_C3 :
    ∀ (fuel : Nat) (head : SelfString) (values : List SelfValue) (ln : Nat)
      (name : String) (fields : List (String × GoValue)),
      (fields.length < values.length →
        packToStructByFieldOrder (fuel + 1) head values ln (.vstruct name fields) =
          .error (.packErr ("too many values to fit into struct " ++ name) ln)) ∧
      (values.length ≤ fields.length →
        isBulletPoint head.str = false → head.str ≠ name →
        packToStructByFieldOrder (fuel + 1) head values ln (.vstruct name fields) =
          .error (.packErr ("bad value `" ++ head.str ++ "`, expected `" ++ name ++ "`") ln)) ∧
      (values.length ≤ fields.length →
        (isBulletPoint head.str = true ∨ head.str = name) →
        packToStructByFieldOrder (fuel + 1) head values ln (.vstruct name fields) =
          orderLoop fuel values 0 name fields) := by
  intro fuel head values ln name fields
  refine ⟨?_, ?_, ?_⟩
  · intro hcount
    simp only [packToStructByFieldOrder]
    rw [if_pos hcount]
  · intro hcount hb hne
    simp only [packToStructByFieldOrder]
    rw [if_neg (by omega), if_pos ⟨by simp [hb], fun h => hne h.symm⟩]
  · intro hcount hok
    simp only [packToStructByFieldOrder]
    rw [if_neg (by omega), if_neg]
    intro hcond
    rcases hok with h | h
    · exact hcond.1 (by simp [h])
    · exact hcond.2 h.symm

/-- Witness for the amended claim C3: too many children error with an
arbitrary bad label, label error at an in-range count, and a bullet label
proceeding to per-field packing. -/
theorem claim_C3_witness :
    packToStructByFieldOrder 10 ⟨"ZZ", 1⟩ [SelfValue.vs ⟨"a", 1⟩, SelfValue.vs ⟨"b", 1⟩] 1
        (.vstruct "T" [("A", .vstring "")]) =
      .error (.packErr "too many values to fit into struct T" 1) ∧
    packToStructByFieldOrder 10 ⟨"ZZ", 1⟩ [] 1 (.vstruct "T" [("A", .vstring "")]) =
      .error (.packErr "bad value `ZZ`, expected `T`" 1) ∧
    packToStructByFieldOrder 10 ⟨"-", 1⟩ [] 1 (.vstruct "T" [("A", .vstring "")]) =
      orderLoop 9 [] 0 "T" [("A", .vstring "")] :=
  ⟨(claim_C3 9 ⟨"ZZ", 1⟩ [SelfValue.vs ⟨"a", 1⟩, SelfValue.vs ⟨"b", 1⟩] 1 "T"
      [("A", .vstring "")]).1 (by decide),
   (claim_C3 9 ⟨"ZZ", 1⟩ [] 1 "T" [("A", .vstring "")]).2.1 (by decide) (by decide) (by decide),
   (claim_C3 9 ⟨"-", 1⟩ [] 1 "T" [("A", .vstring "")]).2.2 (by decide) (Or.inl (by decide))⟩

/-- Claim C10 (confirmed): for every signed or unsigned integer target
kind, coercing a literal shorter than two bytes (such as `"5"` or the
empty string) panics with a slice-bounds violation, because `parseIntEx`
and `parseUintEx` take the byte slice `s[0:2]` unconditionally. -/
theorem claim_C10 :
    ∀ (k : Kind) (s : String) (ln : Nat),
      (isIntKind k || isUintKind k) = true → goByteLen s < 2 →
      encodeScalarField ⟨s, ln⟩ k = .error (.panic "slice bounds out of range") := by
  intro k s ln hk hlen
  cases k <;>
    simp_all [encodeScalarField, parseIntEx, parseUintEx, isIntKind, isUintKind]

/-- Witness for claim C10 at the single digit `"5"` against an unsigned
8-bit target. -/
theorem claim_C10_witness :
    (isIntKind .kuint8 || isUintKind .kuint8) = true ∧ goByteLen "5" < 2 ∧
    encodeScalarField ⟨"5", 0⟩ .kuint8 = .error (.panic "slice bounds out of range") :=
  ⟨by decide, by decide, claim_C10 .kuint8 "5" 0 (by decide) (by decide)⟩

/-- Claim C6 as amended: boolean coercion accepts exactly the
`strconv.ParseBool` literals 1/t/T/true/TRUE/True (as true) and
0/f/F/false/FALSE/False (as false) plus the four spellings y/yes/YES/Yes
(true) and n/no/NO/No (false); every other string, including other
case variants such as `"Y"` or `"yEs"`, is a coercion error. -/
theorem claim_C6 :
    ∀ s : String,
      parseBoolEx s =
        if s ∈ boolTrueLits then some true
        else if s ∈ boolFalseLits then some false
        else none := by
  intro s
  by_cases ht : s ∈ boolTrueLits
  · fin_cases ht <;> decide
  · by_cases hf : s ∈ boolFalseLits
    · fin_cases hf <;> decide
    · rw [if_neg ht, if_neg hf]
      simp only [boolTrueLits, List.mem_cons, List.not_mem_nil, or_false] at ht
      simp only [boolFalseLits, List.mem_cons, List.not_mem_nil, or_false] at hf
      push_neg at ht hf
      obtain ⟨t1, t2, t3, t4, t5, t6, t7, t8, t9, t10⟩ := ht
      obtain ⟨f1, f2, f3, f4, f5, f6, f7, f8, f9, f10⟩ := hf
      simp [parseBoolEx, goParseBool, t1, t2, t3, t4, t5, t6, t7, t8, t9, t10,
        f1, f2, f3, f4, f5, f6, f7, f8, f9, f10]

/-- Witness for the amended claim C6 at the literal `"yes"`. -/
theorem claim_C6_witness : parseBoolEx "yes" = some true :=
  (claim_C6 "yes").trans (by decide)

/-- Setting one named field leaves the lookup of any other name
unchanged. -/
theorem stFieldByName_stSetField (st : GoValue) (n : String) (v : GoValue) (fname : String)
    (h : n ≠ fname) : stFieldByName (stSetField st n v) fname = stFieldByName st fname := by
  cases st with
  | vstruct tn fields =>
    simp only [stSetField, stFieldByName]
    induction fields with
    | nil => rfl
    | cons f rest ih =>
      obtain ⟨fn, fv⟩ := f
      simp only [stSetField.setFieldList, stFieldByName.lookupField]
      by_cases hfn : fn = n
      · subst hfn
        simp only [if_pos rfl, stFieldByName.lookupField]
        rw [if_neg (by exact fun hq => h (hq ▸ rfl)), if_neg (by exact fun hq => h (hq ▸ rfl))]
      · simp only [if_neg hfn, stFieldByName.lookupField]
        by_cases hq : fn = fname
        · rw [if_pos hq, if_pos hq]
        · rw [if_neg hq, if_neg hq]
          exact ih
  | vstring s => rfl
  | vbool b => rfl
  | vint k i => rfl
  | vuint k u => rfl
  | vslice t es => rfl
  | varray s t es => rfl
  | vmap kt et en => rfl

/-- Frame property of the by-name loop: a successful run changes only the
fields named by the children. -/
theorem nameLoop_frame :
    ∀ (fuel : Nat) (nodeName : String) (values : List SelfValue) (st out : GoValue)
      (fname : String),
      nameLoop fuel nodeName values st = .ok out →
      fname ∉ childFieldNames values →
      stFieldByName out fname = stFieldByName st fname := by
  intro fuel
  induction fuel with
  | zero =>
    intro nodeName values st out fname h _
    simp [nameLoop] at h
  | succ f ih =>
    intro nodeName values st out fname h hmem
    match values with
    | [] =>
      simp only [nameLoop] at h
      cases h
      rfl
    | .vs s :: rest =>
      simp [nameLoop] at h
    | .vn hh vals vln vrt :: rest =>
      simp only [nameLoop] at h
      cases hlk : stFieldByName st (publicName hh.str) with
      | none =>
        simp only [hlk] at h
        exact absurd h (by simp)
      | some tf =>
        simp only [hlk] at h
        cases hpk : packIntoField f (.vn hh vals vln vrt) (publicName hh.str) tf with
        | error e => simp only [hpk] at h; exact absurd h (by simp)
        | ok newV =>
          simp only [hpk] at h
          have hne : publicName hh.str ≠ fname := by
            intro hq
            exact hmem (by simp [childFieldNames, hq])
          have hrest : fname ∉ childFieldNames rest := by
            intro hq
            exact hmem (by simp [childFieldNames, hq])
          rw [ih nodeName rest _ out fname h hrest,
            stFieldByName_stSetField st _ newV fname hne]

/-- Claim C8 (confirmed): in by-name record binding, a successful bind
modifies only the destination fields named (after capitalisation) by the
children of the input node; every other field keeps its pre-existing
value, so partial records bind. -/
theorem claim_C8 :
    ∀ (fuel : Nat) (head : SelfString) (values : List SelfValue) (ln : Nat)
      (st out : GoValue) (fname : String),
      packToStructByFieldName fuel head values ln st = .ok out →
      fname ∉ childFieldNames values →
      stFieldByName out fname = stFieldByName st fname := by
  intro fuel
  cases fuel with
  | zero =>
    intro head values ln st out fname h _
    simp [packToStructByFieldName] at h
  | succ f =>
    intro head values ln st out fname h hmem
    exact nameLoop_frame f head.str values st out fname h hmem

/-- Witness for claim C8: a two-field record bound from a partial input
naming only the `age` field; the bind succeeds and the untouched `Name`
field keeps its pre-existing value `"bob"`. -/
theorem claim_C8_witness :
    packToStructByFieldName 100 ⟨"X", 1⟩
        [SelfValue.vn ⟨"age", 1⟩ [SelfValue.vs ⟨"30", 1⟩] 1 false] 1
        (.vstruct "Info" [("Name", .vstring "bob"), ("Age", .vint .kint 7)]) =
      .ok (.vstruct "Info" [("Name", .vstring "bob"), ("Age", .vint .kint 30)]) ∧
    "Name" ∉ childFieldNames [SelfValue.vn ⟨"age", 1⟩ [SelfValue.vs ⟨"30", 1⟩] 1 false] ∧
    stFieldByName (.vstruct "Info" [("Name", .vstring "bob"), ("Age", .vint .kint 30)]) "Name" =
      stFieldByName (.vstruct "Info" [("Name", .vstring "bob"), ("Age", .vint .kint 7)]) "Name" :=
  ⟨rfl, by decide,
   claim_C8 100 ⟨"X", 1⟩ [SelfValue.vn ⟨"age", 1⟩ [SelfValue.vs ⟨"30", 1⟩] 1 false] 1
     (.vstruct "Info" [("Name", .vstring "bob"), ("Age", .vint .kint 7)])
     (.vstruct "Info" [("Name", .vstring "bob"), ("Age", .vint .kint 30)]) "Name"
     rfl (by decide)⟩

/-- `checkMetaHeader` accepts exactly the labels allowed by the
meta-header rule. -/
theorem checkMetaHeader_ok_iff (head : SelfString) (t : GoType) :
    checkMetaHeader head t = .ok () ↔ labelOKB t head.str = true := by
  cases t <;>
    simp only [checkMetaHeader, labelOKB, GoType.kind, GoType.name] <;>
    split_ifs <;>
    (try cases hb : isBulletPoint head.str) <;> simp_all

/-- A compound-element child that passes the guard is a list whose label
satisfies the meta-header rule. -/
theorem compoundChildCheck_sound (t : GoType) (n : SelfValue)
    (hc : isCompoundKind t.kind = true) (h : compoundChildCheck t n = .ok ()) :
    ∃ hh vs vln rt, n = SelfValue.vn hh vs vln rt ∧ labelOKB t hh.str = true := by
  have hkind : t.kind = .kslice ∨ t.kind = .karray ∨ t.kind = .kstruct ∨ t.kind = .kmap := by
    cases t <;> simp_all [isCompoundKind, GoType.kind]
  cases n with
  | vs s =>
    rcases hkind with hk | hk | hk | hk <;> simp [compoundChildCheck, hk] at h
  | vn hh vs vln rt =>
    refine ⟨hh, vs, vln, rt, rfl, ?_⟩
    rw [← checkMetaHeader_ok_iff]
    rcases hkind with hk | hk | hk | hk <;> simpa [compoundChildCheck, hk] using h

/-- Soundness of the slice packing loop: a successful run implies every
child was a list satisfying the meta-header rule, when the element type is
compound. -/
theorem sliceLoop_sound :
    ∀ (fuel : Nat) (t : GoType) (values : List SelfValue) (elems : List GoValue)
      (out : GoValue),
      isCompoundKind t.kind = true →
      sliceLoop fuel t values elems = .ok out →
      ∀ v ∈ values,
        ∃ hh vs vln rt, v = SelfValue.vn hh vs vln rt ∧ labelOKB t hh.str = true := by
  intro fuel
  induction fuel with
  | zero =>
    intro t values elems out _ h
    simp [sliceLoop] at h
  | succ f ih =>
    intro t values elems out hc h v hv
    match values, hv with
    | n :: rest, hv =>
      simp only [sliceLoop] at h
      cases hchk : compoundChildCheck t n with
      | error e => simp only [hchk] at h; exact absurd h (by simp)
      | ok u =>
        cases u
        simp only [hchk] at h
        cases hmk : valueMakeValue f n t with
        | error e => simp only [hmk] at h; exact absurd h (by simp)
        | ok w =>
          simp only [hmk] at h
          rcases List.mem_cons.mp hv with rfl | hv2
          · exact compoundChildCheck_sound t v hc hchk
          · exact ih t rest (elems ++ [w]) out hc h v hv2

/-- Soundness of the array packing loop, mirroring `sliceLoop_sound`. -/
theorem arrayLoop_sound :
    ∀ (fuel : Nat) (size : Nat) (t : GoType) (values : List SelfValue) (i : Nat)
      (elems : List GoValue) (out : GoValue),
      isCompoundKind t.kind = true →
      arrayLoop fuel size t values i elems = .ok out →
      ∀ v ∈ values,
        ∃ hh vs vln rt, v = SelfValue.vn hh vs vln rt ∧ labelOKB t hh.str = true := by
  intro fuel
  induction fuel with
  | zero =>
    intro size t values i elems out _ h
    simp [arrayLoop] at h
  | succ f ih =>
    intro size t values i elems out hc h v hv
    match values, hv with
    | n :: rest, hv =>
      simp only [arrayLoop] at h
      cases hchk : compoundChildCheck t n with
      | error e => simp only [hchk] at h; exact absurd h (by simp)
      | ok u =>
        cases u
        simp only [hchk] at h
        cases hget : elemsGet elems i with
        | none => simp only [hget] at h; exact absurd h (by simp)
        | some cur =>
          simp only [hget] at h
          cases hmk : packIntoField f n "" cur with
          | error e => simp only [hmk] at h; exact absurd h (by simp)
          | ok w =>
            simp only [hmk] at h
            rcases List.mem_cons.mp hv with rfl | hv2
            · exact compoundChildCheck_sound t v hc hchk
            · exact ih size t rest (i + 1) (elemsSet elems i w) out hc h v hv2

/-- Claim C4 (confirmed): when the element type of a slice or an array is
compound, `checkMetaHeader` accepts exactly the labels the specification
describes (empty label for a nested sequence element, bullet or the
element type's name for a record/mapping element), and a successful
`packToSlice`/`packToArray` implies every child was a list whose label
satisfies that rule — so any violation is a bind error for that child:
a string child fails the per-child guard with the "expected a list"
error at that child's line, and a list child is checked exactly by
`checkMetaHeader`. -/
theorem claim_C4 :
    (∀ (head : SelfString) (t : GoType),
        checkMetaHeader head t = .ok () ↔ labelOKB t head.str = true) ∧
    (∀ (t : GoType) (s : SelfString), isCompoundKind t.kind = true →
        compoundChildCheck t (.vs s) =
          .error (.packErr ("compound kind `" ++ t.kind.string ++
            "` expected a list of values") s.lineNumber)) ∧
    (∀ (t : GoType) (hh : SelfString) (vs : List SelfValue) (vln : Nat) (rt : Bool),
        isCompoundKind t.kind = true →
        compoundChildCheck t (.vn hh vs vln rt) = checkMetaHeader hh t) ∧
    (∀ (fuel : Nat) (head : SelfString) (values : List SelfValue) (ln : Nat) (t : GoType)
        (elems : List GoValue) (out : GoValue),
        isCompoundKind t.kind = true →
        packToSlice fuel head values ln (.vslice t elems) = .ok out →
        ∀ v ∈ values,
          ∃ hh vs vln rt, v = SelfValue.vn hh vs vln rt ∧ labelOKB t hh.str = true) ∧
    (∀ (fuel : Nat) (head : SelfString) (values : List SelfValue) (ln : Nat) (size : Nat)
        (t : GoType) (elems : List GoValue) (out : GoValue),
        isCompoundKind t.kind = true →
        packToArray fuel head values ln (.varray size t elems) = .ok out →
        ∀ v ∈ values,
          ∃ hh vs vln rt, v = SelfValue.vn hh vs vln rt ∧ labelOKB t hh.str = true) := by
  refine ⟨checkMetaHeader_ok_iff, ?_, ?_, ?_, ?_⟩
  · intro t s hc
    cases t <;> simp_all [isCompoundKind, GoType.kind, compoundChildCheck]
  · intro t hh vs vln rt hc
    cases t <;> simp_all [isCompoundKind, GoType.kind, compoundChildCheck]
  · intro fuel head values ln t elems out hc h
    cases fuel with
    | zero => simp [packToSlice] at h
    | succ f => exact sliceLoop_sound f t values elems out hc h
  · intro fuel head values ln size t elems out hc h
    cases fuel with
    | zero => simp [packToArray] at h
    | succ f =>
      simp only [packToArray] at h
      by_cases hlen : values.length > size
      · rw [if_pos hlen] at h
        exact absurd h (by simp)
      · rw [if_neg hlen] at h
        exact arrayLoop_sound f size t values 0 elems out hc h

/-- Witness for claim C4: packing one record child labeled with its type
name into a slice of records succeeds, and the theorem yields the list
shape and the label rule for that child. -/
theorem claim_C4_witness :
    ∃ hh vs vln rt,
      SelfValue.vn ⟨"User", 1⟩ [] 1 false = SelfValue.vn hh vs vln rt ∧
      labelOKB (.tstruct "User" [("Name", GoType.tstring)]) hh.str = true :=
  claim_C4.2.2.2.1 100 ⟨"Users", 1⟩ [SelfValue.vn ⟨"User", 1⟩ [] 1 false] 1
    (.tstruct "User" [("Name", GoType.tstring)]) []
    (.vslice (.tstruct "User" [("Name", GoType.tstring)])
      [.vstruct "User" [("Name", .vstring "")]])
    (by decide) rfl (SelfValue.vn ⟨"User", 1⟩ [] 1 false) (List.Mem.head _)

/-- The parser state reached by `loadStringParse` on the input `"(X a"`
when the bare-string loop for the final `a` runs off the end of the
input: end of data, position past the input, current rune still `'a'`. -/
def stuckState : ParserState :=
  { input := "(X a".toList, pos := 4, lineNumber := 1, r := 'a', runeWidth := 1, eod := true }

/-- The state on line 1 of `"(X a"` at the opening delimiter (reached
after the initial trivia skip). -/
def traceP1 : ParserState :=
  { input := "(X a".toList, pos := 0, lineNumber := 1, r := '(', runeWidth := 1, eod := false }

/-- The state of `"(X a"` just after the head `X` was parsed. -/
def traceP3 : ParserState :=
  { input := "(X a".toList, pos := 2, lineNumber := 1, r := ' ', runeWidth := 1, eod := false }

/-- The state of `"(X a"` at the start of the bare value `a`. -/
def traceP4 : ParserState :=
  { input := "(X a".toList, pos := 3, lineNumber := 1, r := 'a', runeWidth := 1, eod := false }

/-- Once the scanner is exhausted with a string character lingering in
`r`, the bare-string loop recurses forever: it exhausts any fuel instead
of returning, because its condition never consults the end-of-data
flag. -/
theorem bareLoop_stuck :
    ∀ (fuel : Nat) (acc : String) (ln : Nat) (p : ParserState),
      p.eod = true → p.input.length ≤ p.pos → isStringChar p.r = true →
      bareLoop fuel acc ln p = .error .outOfFuel := by
  intro fuel
  induction fuel with
  | zero => intro acc ln p _ _ _; rfl
  | succ f ih =>
    intro acc ln p he hp hs
    have hnot : ¬(p.pos + p.runeWidth < p.input.length) := by omega
    have hnx : p.next = { p with pos := p.pos + p.runeWidth, eod := true } := by
      simp [ParserState.next, hnot]
    simp only [bareLoop, if_pos hs]
    exact ih (acc.push p.r) ln p.next
      (by rw [hnx]) (by rw [hnx]; simpa using by omega) (by rw [hnx]; exact hs)

/-- Parsing `"(X a"` never returns: for every fuel bound the interpreter
fails by exhaustion, because the run deterministically reaches the stuck
bare-string loop.  Fuels below 12 die inside the (finite) prefix of the
run; from 12 on, the run reaches `bareLoop` at `stuckState` with the
remaining fuel, which `bareLoop_stuck` consumes whole. -/
theorem loadStringParse_diverges :
    ∀ fuel : Nat, loadStringParse fuel "(X a" = .error .outOfFuel := by
  intro fuel
  rcases Nat.lt_or_ge fuel 12 with h | h
  · interval_cases fuel <;> rfl
  · obtain ⟨k, rfl⟩ : ∃ k, fuel = k + 12 := ⟨fuel - 12, by omega⟩
    have hps : parseString (k + 7) traceP4 = .error .outOfFuel := by
      have hred : parseString (k + 7) traceP4 = bareLoop (k + 5) "a" 1 stuckState := rfl
      rw [hred]
      exact bareLoop_stuck _ _ _ _ rfl (by decide) (by decide)
    have hbody : bodyLoop (k + 8) false [] traceP4 = .error .outOfFuel := by
      have hred : bodyLoop (k + 8) false [] traceP4 =
          (match parseString (k + 7) traceP4 with
            | .error e => (.error e : Except ParseErr (List SelfValue × ParserState))
            | .ok (s, p1) =>
              match skipSpaces (k + 7) p1 with
              | .error e => .error e
              | .ok p2 => bodyLoop (k + 7) false ([] ++ [SelfValue.vs s]) p2) := rfl
      rw [hred, hps]
    have hpnb : parseNodeBody (k + 9) false traceP3 = .error .outOfFuel := by
      have hred : parseNodeBody (k + 9) false traceP3 =
          bodyLoop (k + 8) false [] traceP4 := rfl
      rw [hred]
      exact hbody
    have hpn : parseNode (k + 10) traceP1 = .error .outOfFuel := by
      have hred : parseNode (k + 10) traceP1 =
          (match parseNodeBody (k + 9) false traceP3 with
            | .error e => (.error e : Except ParseErr (SelfValue × ParserState))
            | .ok (vals, p3) => .ok (SelfValue.vn ⟨"X", 1⟩ vals 1 false, p3)) := rfl
      rw [hred, hpnb]
    have houter : bodyLoop (k + 11) true [] traceP1 = .error .outOfFuel := by
      have hred : bodyLoop (k + 11) true [] traceP1 =
          (match parseNode (k + 10) traceP1 with
            | .error e => (.error e : Except ParseErr (List SelfValue × ParserState))
            | .ok (v, p1) =>
              match skipSpaces (k + 10) p1 with
              | .error e => .error e
              | .ok p2 => bodyLoop (k + 10) true ([] ++ [v]) p2) := rfl
      rw [hred, hpn]
    have hred : loadStringParse (k + 12) "(X a" =
        (match bodyLoop (k + 11) true [] traceP1 with
          | .error e => (.error e : Except ParseErr (List SelfValue))
          | .ok (vals, _) => .ok vals) := rfl
    rw [hred, houter]

/-- Claim C5 (a code bug): the bare-string loop of `parseString` never
checks end of data, so once the scanner is exhausted with a string
character lingering in `r` the loop recurses forever, and parsing the
input `"(X a"` never returns — for every fuel bound it fails by
exhaustion instead of returning the accumulated values.  In contrast,
end of data reached between values is tolerated exactly as the claim
says (the body returns the accumulated values, here for `"(X a "`), and
end of data inside a quoted or bracketed string is a hard parse error. -/
theorem claim_C5 :
    (∀ (fuel : Nat) (acc : String) (ln : Nat) (p : ParserState),
        p.eod = true → p.input.length ≤ p.pos → isStringChar p.r = true →
        bareLoop fuel acc ln p = .error .outOfFuel) ∧
    (∀ fuel : Nat, loadStringParse fuel "(X a" = .error .outOfFuel) ∧
    loadStringParse 50 "(X a " =
      .ok [SelfValue.vn ⟨"X", 1⟩ [SelfValue.vs ⟨"a", 1⟩] 1 false] ∧
    loadStringParse 50 "(X `a b" =
      .error (.err "unexpected end of data while parsing string" 1) ∧
    loadStringParse 50 "(X [a b" =
      .error (.err "unexpected end of data while parsing string" 1) :=
  ⟨bareLoop_stuck, loadStringParse_diverges, rfl, rfl, rfl⟩

/-- Witness for claim C5 at the concrete stuck state of the input
`"(X a"`: the hypotheses hold there and the loop only ever exhausts its
fuel. -/
theorem claim_C5_witness :
    stuckState.eod = true ∧ stuckState.input.length ≤ stuckState.pos ∧
    isStringChar stuckState.r = true ∧
    bareLoop 9 "" 1 stuckState = .error .outOfFuel :=
  ⟨rfl, by decide, by decide, claim_C5.1 9 "" 1 stuckState rfl (by decide) (by decide)⟩
